import Mathlib

/-!
Shallow embedding of `src/src/log_entry.rs` (Raft replicated-log entry
format): JSON interchange values, the `Command` / `LogEntry` data model,
their encode/decode functions and structural equality, translated from the
Rust source.  The source file contains several pure syntax slips (missing
braces, a missing generic parameter, `&self` used as a type); those are
repaired to the evident intent and noted at each definition.  Semantically
meaningful content — in particular the misspelled JSON key `"instaceIds"`
in `decode_instance_ids` — is preserved exactly as written.
-/

namespace RaftLog

/-- JSON values, modelling `serde_json::Value`.  Numbers are modelled as
integers (`Int`); the source only ever reads numbers through `as_u64` and
only ever writes `usize` values, so non-integer numbers never matter beyond
`as_u64` returning `none` on them, which the `num` catch-all of `as_u64`
below covers for negatives (stand-ins for all non-u64 numbers). -/
inductive Json where
  | null : Json
  | bool : Bool → Json
  | num  : Int → Json
  | str  : String → Json
  | arr  : List Json → Json
  | obj  : List (String × Json) → Json

/-- Field lookup, modelling `serde_json::Value::get` with a string key:
`some` of the value under the key when the receiver is an object holding
the key, `none` otherwise.  (`serde_json::Map` has unique keys; first-match
lookup on the association list models it.) -/
def Json.get (j : Json) (key : String) : Option Json :=
  match j with
  | .obj fields => fields.lookup key
  | _ => none

/-- `serde_json::Value::as_str`. -/
def Json.as_str : Json → Option String
  | .str s => some s
  | _ => none

/-- `serde_json::Value::as_array`. -/
def Json.as_array : Json → Option (List Json)
  | .arr l => some l
  | _ => none

/-- `serde_json::Value::as_u64`: `some` exactly for non-negative integer
numbers. -/
def Json.as_u64 : Json → Option Nat
  | .num n => if 0 ≤ n then some n.toNat else none
  | _ => none

/-- The `CustomCommand` trait (lines 11-15): the capability record an
application command type `T` must provide.  `from_json` is total (`-> Self`),
so a custom decode can never fail. -/
structure CustomCommand (T : Type) where
  command_type : T → String
  to_json : T → Json
  from_json : Json → T

/-- The `Command<T>` enum (lines 17-28).  `HashSet<usize>` fields are
modelled as `Finset ℕ`. -/
inductive Command (T : Type) where
  | SingleConfiguration (old_configuration configuration : Finset ℕ)
  | JointConfiguration (old_configuration new_configuration : Finset ℕ)
  | Custom (t : T)
deriving DecidableEq

/-- `Command::command_type` (lines 32-37). -/
def Command.command_type (cc : CustomCommand T) : Command T → String
  | .SingleConfiguration _ _ => "SingleConfiguration"
  | .JointConfiguration _ _ => "JointConfiguration"
  | .Custom t => cc.command_type t

/-- The `collect::<Vec<_>>()` + `sort_unstable()` step applied to each
configuration set before encoding: the ascending sorted list of members. -/
def idsList (s : Finset ℕ) : List ℕ :=
  s.sort (· ≤ ·)

/-- An `{"instanceIds": [...]}` wrapper object as built by the `json!`
literals in `Command::to_json`. -/
def idsJson (s : Finset ℕ) : Json :=
  .obj [("instanceIds", .arr ((idsList s).map fun n => Json.num n))]

/-- `Command::to_json` (lines 39-97).  The `json!` macro builds a
`serde_json::Map`, a `BTreeMap` that iterates its keys in sorted order,
hence `"configuration" < "oldConfiguration"` and
`"newConfiguration" < "oldConfiguration"`.  Source line 73 reads
`configuration.sort_unstable()` inside the `JointConfiguration` arm, where
no `configuration` binding is in scope (a name-resolution error); the only
consistent reading, mirroring the `SingleConfiguration` arm and the freshly
collected vector of line 68, sorts `new_configuration`, which is what this
definition does. -/
def Command.to_json (cc : CustomCommand T) : Command T → Json
  | .SingleConfiguration old_configuration configuration =>
      .obj [("configuration", idsJson configuration),
            ("oldConfiguration", idsJson old_configuration)]
  | .JointConfiguration old_configuration new_configuration =>
      .obj [("newConfiguration", idsJson new_configuration),
            ("oldConfiguration", idsJson old_configuration)]
  | .Custom t => cc.to_json t

/-- `decode_instance_ids` (lines 216-229), preserved exactly: it looks up
the misspelled key `"instaceIds"` (source line 218, sic), takes the array
if there is one, keeps the entries `as_u64` accepts and collects them into
a set; anything else yields the empty set. -/
def decode_instance_ids (configuration : Json) : Finset ℕ :=
  (((configuration.get "instaceIds").bind Json.as_array).map
      fun instance_ids => (instance_ids.filterMap Json.as_u64).toFinset).getD ∅

/-- `Command::try_from` (lines 100-134), error type `()` as in the source
(`type Error = ()`): reads the `"type"` discriminator as a string, handles
the two built-in tags by reading the nested `"command"` object (failing
when it is absent), and otherwise hands the whole value to `T::from_json`.
The source's catch-all arm `_ => T::from_json(json)` is ill-typed as
written (an `Option<Command<T>>` is expected); the minimal repair
`Some(Command::Custom(T::from_json(json)))` is used.  The source builds an
`Option` and applies `.ok_or(())`; this definition produces the resulting
`Except Unit` directly. -/
def Command.try_from (cc : CustomCommand T) (json : Json) :
    Except Unit (Command T) :=
  match (json.get "type").bind Json.as_str with
  | none => .error ()
  | some tag =>
    if tag = "SingleConfiguration" then
      match json.get "command" with
      | none => .error ()
      | some command =>
          .ok (.SingleConfiguration
            (((command.get "oldConfiguration").map decode_instance_ids).getD ∅)
            (((command.get "configuration").map decode_instance_ids).getD ∅))
    else if tag = "JointConfiguration" then
      match json.get "command" with
      | none => .error ()
      | some command =>
          .ok (.JointConfiguration
            (((command.get "oldConfiguration").map decode_instance_ids).getD ∅)
            (((command.get "newConfiguration").map decode_instance_ids).getD ∅))
    else
      .ok (.Custom (cc.from_json json))

/-- `impl PartialEq for Command` (lines 156-193) as a boolean function,
parametrised by `T`'s own equality (the `T: PartialEq` bound): same-variant
comparisons compare the corresponding sets, `Custom` defers to `T`,
cross-variant comparisons are `false`.  (The source's `Custom` arm compares
the payload against `other` as a whole, which is ill-typed; the evident
intent, matching the other arms, compares it against `other`'s payload.) -/
def Command.eqb (teq : T → T → Bool) : Command T → Command T → Bool
  | .SingleConfiguration o c, .SingleConfiguration o' c' =>
      decide (o = o') && decide (c = c')
  | .JointConfiguration o n, .JointConfiguration o' n' =>
      decide (o = o') && decide (n = n')
  | .Custom t, .Custom t' => teq t t'
  | _, _ => false

/-- The `LogEntry<T>` struct (lines 195-199). -/
structure LogEntry (T : Type) where
  term : ℕ
  command : Option (Command T)
deriving DecidableEq

/-- `#[derive(PartialEq)]` on `LogEntry` (line 195): field-wise equality,
with `Option<Command<T>>` equality being `None == None`,
`Some(x) == Some(y)` iff `x == y` under `Command`'s `PartialEq`. -/
def LogEntry.eqb (teq : T → T → Bool) (e e' : LogEntry T) : Bool :=
  decide (e.term = e'.term) &&
    match e.command, e'.command with
    | none, none => true
    | some c, some c' => Command.eqb teq c c'
    | _, _ => false

/-- `LogEntry::to_json` (lines 202-214): inserts `"term"`, and when a
command is present also `"type"` and `"command"`, into a fresh
`serde_json::Map` (a `BTreeMap`, so the object iterates its keys in sorted
order: `"command" < "term" < "type"`).  Line 208's `JsonValue(...)` is a
syntax slip for `JsonValue::from(...)` on the command-type string. -/
def LogEntry.to_json (cc : CustomCommand T) (e : LogEntry T) : Json :=
  match e.command with
  | none => .obj [("term", .num e.term)]
  | some command =>
      .obj [("command", command.to_json cc),
            ("term", .num e.term),
            ("type", .str (command.command_type cc))]

/-- The term-field read of `LogEntry::from` (lines 235-239):
`get("term").and_then(as_u64).unwrap_or(0)`. -/
def decodeTerm (json : Json) : ℕ :=
  ((json.get "term").bind Json.as_u64).getD 0

/-- `impl From<&JsonValue> for LogEntry` (lines 232-244; the `<T>` generic
parameter is omitted in the source, a syntax slip).  Total: the term
defaults and the command keeps only a successful `Command::try_from`
(`.ok()`). -/
def LogEntry.from_json (cc : CustomCommand T) (json : Json) : LogEntry T :=
  { term := decodeTerm json,
    command := (Command.try_from cc json).toOption }

/-- The `PogChamp` custom command type from the source's test module
(lines 483-513): a single `usize` payload. -/
structure PogChamp where
  payload : ℕ
deriving DecidableEq

/-- The `CustomCommand` capability for `PogChamp` as in the test module:
tag `"PogChamp"`, payload object encoding, and the decode closure
`pog_champ_factory` (lines 507-514) reading `"payload"` with default 0. -/
def pogChampImpl : CustomCommand PogChamp :=
  { command_type := fun _ => "PogChamp",
    to_json := fun p => .obj [("payload", .num p.payload)],
    from_json := fun j => ⟨((j.get "payload").bind Json.as_u64).getD 0⟩ }

/-- A sorted, duplicate-free list whose members are exactly a set `s` is
the canonical ascending listing of `s` used by the encoder. -/
theorem idsList_eq_of (s : Finset ℕ) (L : List ℕ) (h1 : List.Sorted (· ≤ ·) L)
    (h2 : L.Nodup) (h3 : L.toFinset = s) : idsList s = L := by
  unfold idsList
  refine List.eq_of_perm_of_sorted ?_ (Finset.sort_sorted _ _) h1
  refine List.perm_of_nodup_nodup_toFinset_eq (Finset.sort_nodup _ _) h2 ?_
  rw [Finset.sort_toFinset]
  exact h3.symm

/-- Claim C1 (code bug witnessed): encoding the single-configuration
example entry of the spec and decoding it back does NOT reconstruct the
entry — the decoder's `decode_instance_ids` looks up the misspelled key
`"instaceIds"` while the encoder writes `"instanceIds"`, so both
configuration sets come back empty.  The third conjunct isolates the
cause: decoding an encoded `instanceIds` wrapper yields the empty set. -/
theorem C1_roundtrip_counterexample :
    LogEntry.from_json pogChampImpl
        (LogEntry.to_json pogChampImpl
          ⟨9, some (.SingleConfiguration {5, 42, 85, 13531, 8354}
                      {42, 85, 13531, 8354})⟩)
      = ⟨9, some (.SingleConfiguration ∅ ∅)⟩
    ∧ (⟨9, some (.SingleConfiguration ∅ ∅)⟩ : LogEntry PogChamp)
        ≠ ⟨9, some (.SingleConfiguration {5, 42, 85, 13531, 8354}
                      {42, 85, 13531, 8354})⟩
    ∧ decode_instance_ids (idsJson {42, 85, 13531, 8354}) = ∅ := by
  refine ⟨by decide, by decide, ?_⟩
  rfl

/-- Claim C2: every `"instanceIds"` array produced by encoding a
`SingleConfiguration` or `JointConfiguration` command is the
ascending-sorted listing of the corresponding set; building the set from
any permutation of the same elements yields the identical encoding; and
the set `{5,42,85,13531,8354}` always encodes as the array
`[5,42,85,8354,13531]`. -/
theorem C2_encode_canonical_sorted {T : Type} (cc : CustomCommand T)
    (s t : Finset ℕ) (l₁ l₂ : List ℕ) (h : l₁.Perm l₂) :
    (Command.to_json cc (.SingleConfiguration s t)).get "configuration"
        = some (idsJson t)
    ∧ (Command.to_json cc (.SingleConfiguration s t)).get "oldConfiguration"
        = some (idsJson s)
    ∧ (Command.to_json cc (.JointConfiguration s t)).get "newConfiguration"
        = some (idsJson t)
    ∧ (Command.to_json cc (.JointConfiguration s t)).get "oldConfiguration"
        = some (idsJson s)
    ∧ (idsJson s).get "instanceIds"
        = some (.arr ((idsList s).map fun n => Json.num n))
    ∧ List.Sorted (· ≤ ·) (idsList s)
    ∧ Command.to_json cc (.SingleConfiguration l₁.toFinset l₁.toFinset)
        = Command.to_json cc (.SingleConfiguration l₂.toFinset l₂.toFinset)
    ∧ Command.to_json cc (.JointConfiguration l₁.toFinset l₁.toFinset)
        = Command.to_json cc (.JointConfiguration l₂.toFinset l₂.toFinset)
    ∧ idsList {5, 42, 85, 13531, 8354} = [5, 42, 85, 8354, 13531] := by
  have hfs : l₁.toFinset = l₂.toFinset := List.toFinset_eq_of_perm _ _ h
  refine ⟨rfl, rfl, rfl, rfl, rfl, Finset.sort_sorted _ _, by rw [hfs],
    by rw [hfs], ?_⟩
  exact idsList_eq_of _ _ (by decide) (by decide) (by decide)

theorem C2_witness :
    ([5, 42, 85, 13531, 8354] : List ℕ).Perm [8354, 13531, 85, 42, 5]
    ∧ Command.to_json pogChampImpl
        (.SingleConfiguration ([5, 42, 85, 13531, 8354] : List ℕ).toFinset
          ([5, 42, 85, 13531, 8354] : List ℕ).toFinset)
      = Command.to_json pogChampImpl
        (.SingleConfiguration ([8354, 13531, 85, 42, 5] : List ℕ).toFinset
          ([8354, 13531, 85, 42, 5] : List ℕ).toFinset)
    ∧ idsList {5, 42, 85, 13531, 8354} = [5, 42, 85, 8354, 13531] :=
  ⟨by decide,
    (C2_encode_canonical_sorted pogChampImpl ∅ ∅ _ _
      (by decide)).2.2.2.2.2.2.1,
    (C2_encode_canonical_sorted pogChampImpl ∅ ∅ [] []
      (List.Perm.refl _)).2.2.2.2.2.2.2.2⟩

/-- Claim C3 (code bug witnessed): `Command::try_from` has no registry and
no named error kinds (its error type is the unit type): an unrecognized
`"type"` tag is handed to the infallible `T::from_json`, so decoding
`\x7b"type":"DoesNotExist","command":\x7b\x7d\x7d` SUCCEEDS with a
`Custom` command instead of failing with `UnknownCommandType`; a value
with no `"type"` field fails with the unit error, not a `MissingType`
value. -/
theorem C3_unknown_tag_decode_behavior :
    Command.try_from pogChampImpl
        (.obj [("type", .str "DoesNotExist"), ("command", .obj [])])
      = .ok (.Custom ⟨0⟩)
    ∧ Command.try_from pogChampImpl (.obj []) = .error () :=
  ⟨rfl, rfl⟩

/-- Claim C4: `LogEntry` decode is a total function: for every structured
value it equals the record whose term is the independent term read and
whose command is `try_from`'s result demoted to an option — `none` exactly
when command decoding fails, `some c` exactly when it succeeds with `c`. -/
theorem C4_entry_decode_total {T : Type} (cc : CustomCommand T) (j : Json) :
    LogEntry.from_json cc j
      = ⟨decodeTerm j, (Command.try_from cc j).toOption⟩
    ∧ ((LogEntry.from_json cc j).command = none
        ↔ Command.try_from cc j = .error ())
    ∧ (∀ c, (LogEntry.from_json cc j).command = some c
        ↔ Command.try_from cc j = .ok c) := by
  refine ⟨rfl, ?_, ?_⟩
  · cases h : Command.try_from cc j with
    | ok c => simp [LogEntry.from_json, h, Except.toOption]
    | error e => simp [LogEntry.from_json, h, Except.toOption]
  · intro c
    cases h : Command.try_from cc j with
    | ok c' => simp [LogEntry.from_json, h, Except.toOption]
    | error e => simp [LogEntry.from_json, h, Except.toOption]

theorem C4_witness :
    LogEntry.from_json pogChampImpl (.obj [])
      = ⟨decodeTerm (.obj []),
          (Command.try_from pogChampImpl (.obj [])).toOption⟩ :=
  (C4_entry_decode_total pogChampImpl (.obj [])).1

/-- Claim C5: the decoded term is `get("term")` read through `as_u64` with
default 0: it is 0 whenever the field is absent or not an unsigned
integer, it is the read value whenever the read succeeds, and (being a
total function of the input) term parsing never fails. -/
theorem C5_term_default {T : Type} (cc : CustomCommand T) (j : Json) :
    (LogEntry.from_json cc j).term = ((j.get "term").bind Json.as_u64).getD 0
    ∧ (j.get "term" = none → (LogEntry.from_json cc j).term = 0)
    ∧ (∀ v, j.get "term" = some v → Json.as_u64 v = none →
        (LogEntry.from_json cc j).term = 0)
    ∧ (∀ n, (j.get "term").bind Json.as_u64 = some n →
        (LogEntry.from_json cc j).term = n) := by
  refine ⟨rfl, ?_, ?_, ?_⟩
  · intro h
    simp [LogEntry.from_json, decodeTerm, h]
  · intro v hv hu
    simp [LogEntry.from_json, decodeTerm, hv, hu]
  · intro n hn
    simp [LogEntry.from_json, decodeTerm, hn]

theorem C5_witness :
    (Json.obj [("term", .str "x")]).get "term" = some (.str "x")
    ∧ Json.as_u64 (.str "x") = none
    ∧ (LogEntry.from_json pogChampImpl (.obj [("term", .str "x")])).term = 0 :=
  ⟨rfl, rfl, (C5_term_default pogChampImpl _).2.2.1 _ rfl rfl⟩

/-- Claim C6 (code bug witnessed): a configuration sub-object that lacks
the `"instanceIds"` key but holds an array under the misspelled key
`"instaceIds"` decodes to THAT array's set, not to the empty set — the
decoder reads the misspelled key.  Conversely (third conjunct) a
`SingleConfiguration` body lacking `"oldConfiguration"` does decode its
missing sub-object to an empty old set as claimed, while a present,
correctly spelled `"instanceIds"` array is ignored (configuration also
comes back empty). -/
theorem C6_missing_ids_behavior :
    (Json.obj [("instaceIds", .arr [.num 3])]).get "instanceIds" = none
    ∧ decode_instance_ids (.obj [("instaceIds", .arr [.num 3])]) = {3}
    ∧ Command.try_from pogChampImpl
        (.obj [("type", .str "SingleConfiguration"),
               ("command", .obj [("configuration",
                  .obj [("instanceIds", .arr [.num 3])])])])
      = .ok (.SingleConfiguration ∅ ∅) :=
  ⟨rfl, by decide, rfl⟩

/-- Claim C7: the entry encoder always emits `"term"`; with no command the
output object holds exactly the term field; with a command it additionally
holds the flattened `"type"` tag and `"command"` body in the same
top-level object. -/
theorem C7_entry_encode_shape {T : Type} (cc : CustomCommand T)
    (e : LogEntry T) :
    (LogEntry.to_json cc e).get "term" = some (.num e.term)
    ∧ (e.command = none → LogEntry.to_json cc e = .obj [("term", .num e.term)])
    ∧ (∀ c, e.command = some c →
        LogEntry.to_json cc e
          = .obj [("command", c.to_json cc), ("term", .num e.term),
                  ("type", .str (c.command_type cc))]) := by
  obtain ⟨t, cmd⟩ := e
  cases cmd with
  | none =>
      refine ⟨rfl, fun _ => rfl, fun c hc => ?_⟩
      exact absurd hc (by simp)
  | some c =>
      refine ⟨rfl, fun hn => absurd hn (by simp), fun c' hc => ?_⟩
      obtain rfl : c = c' := by injection hc
      rfl

theorem C7_witness :
    LogEntry.to_json pogChampImpl ⟨9, none⟩ = .obj [("term", .num 9)] :=
  (C7_entry_encode_shape pogChampImpl ⟨9, none⟩).2.1 rfl

/-- Claim C8: command equality is structural and variant-aware — equal
same-variant built-ins exactly when the corresponding sets are equal,
cross-variant comparisons false, `Custom` deferring to `T`'s equality —
and entry equality is the conjunction of term equality with option-lifted
command equality; hence entries differing only in term or in one set
element are unequal and identical entries are equal. -/
theorem C8_structural_equality {T : Type} (teq : T → T → Bool)
    (o c o' c' : Finset ℕ) (x y : T) (e e' : LogEntry T) :
    (Command.eqb teq (.SingleConfiguration o c) (.SingleConfiguration o' c')
        = true ↔ (o = o' ∧ c = c'))
    ∧ (Command.eqb teq (.JointConfiguration o c) (.JointConfiguration o' c')
        = true ↔ (o = o' ∧ c = c'))
    ∧ Command.eqb teq (.SingleConfiguration o c) (.JointConfiguration o' c')
        = false
    ∧ Command.eqb teq (.JointConfiguration o c) (.SingleConfiguration o' c')
        = false
    ∧ Command.eqb teq (.SingleConfiguration o c) (.Custom x) = false
    ∧ Command.eqb teq (.Custom x) (.Custom y) = teq x y
    ∧ (LogEntry.eqb teq e e' = true ↔
        (e.term = e'.term ∧
          ((e.command = none ∧ e'.command = none) ∨
            (∃ a b, e.command = some a ∧ e'.command = some b
              ∧ Command.eqb teq a b = true))))
    ∧ LogEntry.eqb teq ⟨9, none⟩ ⟨8, none⟩ = false
    ∧ LogEntry.eqb teq ⟨9, some (.SingleConfiguration {1, 2} {3})⟩
        ⟨9, some (.SingleConfiguration {1, 2} {3, 4})⟩ = false
    ∧ LogEntry.eqb teq ⟨9, some (.SingleConfiguration o c)⟩
        ⟨9, some (.SingleConfiguration o c)⟩ = true := by
  refine ⟨by simp [Command.eqb], by simp [Command.eqb], rfl, rfl, rfl, rfl,
    ?_, by simp [LogEntry.eqb], ?_, by simp [LogEntry.eqb, Command.eqb]⟩
  · obtain ⟨t, cmd⟩ := e
    obtain ⟨t', cmd'⟩ := e'
    cases cmd with
    | none =>
        cases cmd' with
        | none => simp [LogEntry.eqb]
        | some b => simp [LogEntry.eqb]
    | some a =>
        cases cmd' with
        | none => simp [LogEntry.eqb]
        | some b => simp [LogEntry.eqb]
  · simp [LogEntry.eqb, Command.eqb]
    decide

theorem C8_witness :
    Command.eqb (fun a b : PogChamp => decide (a = b)) (.Custom ⟨1⟩)
        (.Custom ⟨1⟩)
      = decide ((⟨1⟩ : PogChamp) = ⟨1⟩) :=
  (C8_structural_equality (fun a b : PogChamp => decide (a = b)) ∅ ∅ ∅ ∅
    ⟨1⟩ ⟨1⟩ ⟨0, none⟩ ⟨0, none⟩).2.2.2.2.2.1

/-- Claim C9: the ids the decoder reads from an array are exactly the
entries `as_u64` accepts, collected into a set — non-unsigned-integer
entries are silently skipped and duplicates collapse, as the concrete
array `[1, "x", 1, 2, -3, null]` decoding to `\x7b1, 2\x7d` shows.  (The
array is read from the key the source actually names, the misspelled
`"instaceIds"`.) -/
theorem C9_decode_ids_set (l : List Json) (n : ℕ) :
    decode_instance_ids (.obj [("instaceIds", .arr l)])
      = (l.filterMap Json.as_u64).toFinset
    ∧ (n ∈ decode_instance_ids (.obj [("instaceIds", .arr l)])
        ↔ ∃ j ∈ l, Json.as_u64 j = some n)
    ∧ decode_instance_ids
        (.obj [("instaceIds",
          .arr [.num 1, .str "x", .num 1, .num 2, .num (-3), .null])])
      = {1, 2} := by
  refine ⟨rfl, ?_, by decide⟩
  show n ∈ (l.filterMap Json.as_u64).toFinset ↔ _
  simp [List.mem_filterMap]

theorem C9_witness :
    decode_instance_ids (.obj [("instaceIds", .arr [.num 1, .num 1])])
      = ([Json.num 1, Json.num 1].filterMap Json.as_u64).toFinset :=
  (C9_decode_ids_set [.num 1, .num 1] 0).1

/-- Claim C10: when the `"type"` discriminator names a built-in tag but
the top-level `"command"` object is absent, `Command::try_from` fails (no
empty-set defaulting at this level), and at the `LogEntry` boundary this
failure degrades to `command = none`. -/
theorem C10_missing_command_object_fails {T : Type} (cc : CustomCommand T)
    (j : Json) (tag : String)
    (htag : tag = "SingleConfiguration" ∨ tag = "JointConfiguration")
    (ht : (j.get "type").bind Json.as_str = some tag)
    (hc : j.get "command" = none) :
    Command.try_from cc j = .error ()
    ∧ (LogEntry.from_json cc j).command = none := by
  have h1 : Command.try_from cc j = .error () := by
    unfold Command.try_from
    rw [ht]
    rcases htag with rfl | rfl <;> simp [hc]
  exact ⟨h1, by simp [LogEntry.from_json, h1, Except.toOption]⟩

theorem C10_witness :
    (Json.obj [("type", .str "SingleConfiguration")]).get "command" = none
    ∧ Command.try_from pogChampImpl
        (.obj [("type", .str "SingleConfiguration")]) = .error ()
    ∧ (LogEntry.from_json pogChampImpl
        (.obj [("type", .str "SingleConfiguration")])).command = none :=
  ⟨rfl,
    (C10_missing_command_object_fails pogChampImpl
      (.obj [("type", .str "SingleConfiguration")]) "SingleConfiguration"
      (Or.inl rfl) rfl rfl).1,
    (C10_missing_command_object_fails pogChampImpl
      (.obj [("type", .str "SingleConfiguration")]) "SingleConfiguration"
      (Or.inl rfl) rfl rfl).2⟩

end RaftLog
